import Mathlib

/-!
Verification of a small blog-style content API (Express + Mongoose) and a
React button component, against its natural-language specification.

Strings are embedded as `List Char`, so that the JavaScript string
operations used by the code (`startsWith`, `split(' ')`, first-occurrence
`replace`, `Array.join(' ')`, `filter(Boolean)`) can be given faithful
executable definitions and reasoned about by list induction.

The token utility (`src/utils/auth.js`), the authentication middleware
(`src/middleware/auth.js`), the application wiring (`src/app.js`) and the
`Button` component are embedded from their sources. The post controllers
are absent from the repository (only their integration tests exist), so
they are modelled from the specification, as marked on each definition.
-/

namespace BlogApi

/-- JavaScript `String.prototype.startsWith`: `jsStartsWith s p` is true
iff `p` is an initial segment of `s`. -/
def jsStartsWith : List Char → List Char → Bool
  | _, [] => true
  | [], _ :: _ => false
  | a :: as, b :: bs => a = b && jsStartsWith as bs

/-- JavaScript `String.prototype.split(sep)` for a single-character
separator: splits on every occurrence, keeping empty segments
(`"a  b".split(" ") = ["a","","b"]`, `"".split(" ") = [""]`). -/
def splitChar (sep : Char) : List Char → List (List Char)
  | [] => [[]]
  | c :: rest =>
    match splitChar sep rest with
    | [] => [[c]]
    | g :: gs => if c = sep then [] :: g :: gs else (c :: g) :: gs

/-- JavaScript `String.prototype.replace(pat, repl)` with a string
pattern: replaces only the FIRST occurrence of `pat`, leaving the string
unchanged when `pat` does not occur. -/
def replaceFirst (pat repl : List Char) (s : List Char) : List Char :=
  if jsStartsWith s pat then repl ++ s.drop pat.length
  else
    match s with
    | [] => []
    | c :: rest => c :: replaceFirst pat repl rest

/-- JavaScript `Array.prototype.join(sep)`. -/
def joinSep (sep : List Char) : List (List Char) → List Char
  | [] => []
  | [x] => x
  | x :: y :: rest => x ++ sep ++ joinSep sep (y :: rest)

/-- The fixed token tag `"token_"` used by the token utility and the
middleware. -/
def tokenTag : List Char := "token_".toList

/-- The header literal `"Bearer "` required by the middleware. -/
def bearerSpace : List Char := "Bearer ".toList

/-- `generateToken` from `src/utils/auth.js`:
`` return `token_${user._id}` `` — the token is the tag followed by the
user's identifier. -/
def generateToken (userId : List Char) : List Char := tokenTag ++ userId

/-- Result of the authentication middleware: either it responds with a
status and JSON message without calling the downstream handler
(`reject`), or it attaches `req.user = { _id := userId }` and calls
`next()` (`proceed`). -/
inductive AuthOutcome where
  | reject (status : Nat) (message : List Char)
  | proceed (userId : List Char)
  deriving DecidableEq, Repr

/-- `authenticate` from `src/middleware/auth.js`:
if the `Authorization` header is absent or does not start with
`"Bearer "`, respond `401 {message: 'Authentication required'}`;
otherwise take `authHeader.split(' ')[1]` as the token; if it is empty,
respond `401 {message: 'Invalid token'}`; otherwise set
`req.user._id = token.replace('token_', '')` and call `next()`. -/
def authenticate (authHeader : Option (List Char)) : AuthOutcome :=
  match authHeader with
  | none => .reject 401 "Authentication required".toList
  | some h =>
    if jsStartsWith h bearerSpace then
      let token := (splitChar ' ' h).getD 1 []
      if token = [] then .reject 401 "Invalid token".toList
      else .proceed (replaceFirst tokenTag [] token)
    else .reject 401 "Authentication required".toList

/-- A stored post: identifier, title, content, author reference, slug,
optional category reference (spec §3 data model). -/
structure Post where
  _id : List Char
  title : List Char
  content : List Char
  author : List Char
  slug : List Char
  category : Option (List Char)
  deriving DecidableEq, Repr

/-- Body of a `POST /api/posts` request (all fields client-controlled,
hence optional). -/
structure CreateBody where
  title : Option (List Char)
  content : Option (List Char)
  author : Option (List Char)
  slug : Option (List Char)
  deriving DecidableEq, Repr

/-- Body of a `PUT /api/posts/:id` request. -/
structure UpdateBody where
  title : Option (List Char)
  content : Option (List Char)
  deriving DecidableEq, Repr

/-- Modelled from the spec: the `POST /posts` controller, whose source
file is missing from the repository (only its tests exist). Spec §4.2:
"validates presence of title/content (delegated to the model layer);
persists with author = authenticated id; returns 201 + created post, or
400 on validation failure". Returns (status, created post if any,
resulting store); `newId` stands for the store-generated identifier. -/
def createPost (authId : List Char) (body : CreateBody) (newId : List Char)
    (store : List Post) : Nat × Option Post × List Post :=
  match body.title, body.content with
  | some t, some c =>
    let post : Post :=
      { _id := newId, title := t, content := c, author := authId,
        slug := body.slug.getD [], category := none }
    (201, some post, store ++ [post])
  | _, _ => (400, none, store)

/-- Modelled from the spec: the `GET /posts/:id` controller, whose source
file is missing from the repository (only its tests exist). Spec §4.2:
"public; 200 + post (author populated) or 404 if absent". -/
def getPost (id : List Char) (store : List Post) : Nat × Option Post :=
  match store.find? (fun p => p._id == id) with
  | none => (404, none)
  | some p => (200, some p)

/-- Field-wise application of a `PUT` body to a stored post: provided
fields overwrite, absent fields are kept. -/
def applyUpdate (p : Post) (body : UpdateBody) : Post :=
  { p with title := body.title.getD p.title,
           content := body.content.getD p.content }

/-- Modelled from the spec: the `PUT /posts/:id` controller, whose source
file is missing from the repository (only its tests exist). Spec §4.2:
"looks up and updates only if the authenticated id matches the stored
author; returns 200 + updated post, ..., 404 if no matching post/owner
combination". -/
def updatePost (authId id : List Char) (body : UpdateBody)
    (store : List Post) : Nat × Option Post × List Post :=
  match store.find? (fun p => p._id == id && p.author == authId) with
  | none => (404, none, store)
  | some p =>
    let p' := applyUpdate p body
    (200, some p', store.map (fun q => if q._id == id then p' else q))

/-- Modelled from the spec: the `DELETE /posts/:id` controller, whose
source file is missing from the repository (only its tests exist). Spec
§4.2: "deletes by id; 200 + confirmation message"; spec §6: success body
`{message:"Post deleted"}`. -/
def deletePost (id : List Char) (store : List Post) :
    Nat × List Char × List Post :=
  (200, "Post deleted".toList, store.filter (fun p => !(p._id == id)))

/-- The `POST /api/posts` pipeline as mounted in `src/app.js`: the
`authenticate` middleware runs first; only when it proceeds does the
controller run with the attached user id. -/
def handleCreate (authHeader : Option (List Char)) (body : CreateBody)
    (newId : List Char) (store : List Post) : Nat × Option Post × List Post :=
  match authenticate authHeader with
  | .reject s _ => (s, none, store)
  | .proceed uid => createPost uid body newId store

/-- The `PUT /api/posts/:id` pipeline: `authenticate`, then the update
controller. -/
def handleUpdate (authHeader : Option (List Char)) (id : List Char)
    (body : UpdateBody) (store : List Post) : Nat × Option Post × List Post :=
  match authenticate authHeader with
  | .reject s _ => (s, none, store)
  | .proceed uid => updatePost uid id body store

/-- The `DELETE /api/posts/:id` pipeline: `authenticate`, then the delete
controller; a rejection's JSON message is passed through. -/
def handleDelete (authHeader : Option (List Char)) (id : List Char)
    (store : List Post) : Nat × List Char × List Post :=
  match authenticate authHeader with
  | .reject s m => (s, m, store)
  | .proceed _ => deletePost id store

/-- Props of the `Button` component in
`src/client/src/components/Button.jsx`, with the source's defaults in
`defaultProps` below; `children`, `onClick` and the rest-spread do not
affect the class string or the disabled attribute and are omitted. -/
structure ButtonProps where
  disabled : Bool
  variant : List Char
  size : List Char
  btype : List Char
  className : List Char
  deriving DecidableEq, Repr

/-- The source's default prop values: `disabled = false`,
`variant = 'primary'`, `size = 'md'`, `type = 'button'`,
`className = ''`. -/
def defaultProps : ButtonProps :=
  { disabled := false, variant := "primary".toList, size := "md".toList,
    btype := "button".toList, className := [] }

/-- The attributes of the rendered `<button>` element that the props
determine. -/
structure RenderedButton where
  btype : List Char
  disabled : Bool
  className : List Char
  deriving DecidableEq, Repr

/-- `buttonClasses` from `Button.jsx`:
`[variantClass, sizeClass, disabledClass, className].filter(Boolean).join(' ')`
where `variantClass = 'btn-' + variant`, `sizeClass = 'btn-' + size`,
`disabledClass = disabled ? 'btn-disabled' : ''`. `filter(Boolean)` drops
exactly the empty strings. -/
def buttonClasses (p : ButtonProps) : List Char :=
  joinSep [' ']
    (([("btn-".toList ++ p.variant), ("btn-".toList ++ p.size),
       (if p.disabled then "btn-disabled".toList else []),
       p.className]).filter (fun l => !l.isEmpty))

/-- The `Button` component from `Button.jsx`: renders a `<button>` with
`type={type}`, `disabled={disabled}` and `className={buttonClasses}`. -/
def Button (p : ButtonProps) : RenderedButton :=
  { btype := p.btype, disabled := p.disabled, className := buttonClasses p }

/-- The class segments that the claim about `Button` expects in the
rendered class string: `btn-` + variant, `btn-` + size, `btn-disabled`
exactly when disabled, the caller's className exactly when non-empty. -/
def partsOf (p : ButtonProps) : List (List Char) :=
  ["btn-".toList ++ p.variant, "btn-".toList ++ p.size] ++
  (if p.disabled then ["btn-disabled".toList] else []) ++
  (if p.className = [] then [] else [p.className])

/-! Helper lemmas about the JavaScript string operations. -/

theorem jsStartsWith_append (p s : List Char) :
    jsStartsWith (p ++ s) p = true := by
  induction p with
  | nil => cases s <;> rfl
  | cons b bs ih => simp [jsStartsWith, ih]

theorem splitChar_ne_nil (sep : Char) (l : List Char) :
    splitChar sep l ≠ [] := by
  cases l with
  | nil => simp [splitChar]
  | cons c rest =>
    cases hs : splitChar sep rest with
    | nil => simp [splitChar, hs]
    | cons g gs =>
      simp only [splitChar, hs]
      split <;> simp

theorem splitChar_no_sep (sep : Char) (l : List Char) (h : sep ∉ l) :
    splitChar sep l = [l] := by
  induction l with
  | nil => rfl
  | cons c rest ih =>
    have hc : c ≠ sep := fun hh => h (hh ▸ List.mem_cons_self c rest)
    have hrest : sep ∉ rest := fun hh => h (List.mem_cons_of_mem c hh)
    simp [splitChar, ih hrest, hc]

theorem splitChar_append_cons (sep : Char) (l1 l2 : List Char)
    (h : sep ∉ l1) :
    splitChar sep (l1 ++ sep :: l2) = l1 :: splitChar sep l2 := by
  induction l1 with
  | nil =>
    simp only [List.nil_append]
    cases hs : splitChar sep l2 with
    | nil => exact absurd hs (splitChar_ne_nil sep l2)
    | cons g gs => simp [splitChar, hs]
  | cons c rest ih =>
    have hc : c ≠ sep := fun hh => h (hh ▸ List.mem_cons_self c rest)
    have hrest : sep ∉ rest := fun hh => h (List.mem_cons_of_mem c hh)
    have ih2 := ih hrest
    show splitChar sep (c :: (rest ++ sep :: l2))
        = (c :: rest) :: splitChar sep l2
    rw [splitChar, ih2]
    simp [hc]

theorem replaceFirst_of_tag (pat repl s : List Char) :
    replaceFirst pat repl (pat ++ s) = repl ++ s := by
  unfold replaceFirst
  rw [if_pos (jsStartsWith_append pat s)]
  simp

theorem splitChar_joinSep (sep : Char) (x : List Char)
    (rest : List (List Char)) (h : ∀ l ∈ x :: rest, sep ∉ l) :
    splitChar sep (joinSep [sep] (x :: rest)) = x :: rest := by
  induction rest generalizing x with
  | nil => exact splitChar_no_sep sep x (h x (List.mem_cons_self x []))
  | cons y rest ih =>
    have hx : sep ∉ x := h x (List.mem_cons_self x (y :: rest))
    have hrest : ∀ l ∈ y :: rest, sep ∉ l :=
      fun l hl => h l (List.mem_cons_of_mem x hl)
    have he : joinSep [sep] (x :: y :: rest)
        = x ++ sep :: joinSep [sep] (y :: rest) := by
      simp [joinSep]
    rw [he, splitChar_append_cons sep x _ hx, ih y hrest]

theorem authenticate_reject_401 (h? : Option (List Char)) (s : Nat)
    (m : List Char) (hr : authenticate h? = .reject s m) : s = 401 := by
  cases h? with
  | none =>
    simp only [authenticate] at hr
    cases hr
    rfl
  | some h =>
    simp only [authenticate] at hr
    split at hr
    · split at hr
      · cases hr; rfl
      · cases hr
    · cases hr; rfl

/-! Claim theorems. -/

/-- Claim C1, counterexample: for the user identifier `"a b"` (which
contains a space), authenticating `"Bearer " ++ generateToken "a b"`
does succeed but attaches `"a"`, not `"a b"` — `split(' ')[1]` truncates
the token at the first space, so prefix-stripping does not invert
prefix-adding for every identifier. -/
theorem C1_token_roundtrip_counterexample :
    authenticate (some (bearerSpace ++ generateToken "a b".toList))
      = AuthOutcome.proceed "a".toList ∧ "a".toList ≠ "a b".toList := by
  decide

/-- Claim C1 (amended): for every user identifier containing no space
character, authenticating a request whose Authorization header is
`"Bearer "` followed by `generateToken` of that identifier succeeds
(does not return 401) and attaches exactly that identifier to the
request context — the middleware's stripping inverts the token utility's
tagging on space-free identifiers. -/
theorem C1_token_roundtrip (id : List Char) (hid : ' ' ∉ id) :
    authenticate (some (bearerSpace ++ generateToken id))
      = AuthOutcome.proceed id := by
  have hsw : jsStartsWith (bearerSpace ++ generateToken id) bearerSpace
      = true := jsStartsWith_append _ _
  have hmem : ' ' ∉ tokenTag ++ id := by
    intro hm
    rcases List.mem_append.mp hm with hm | hm
    · revert hm; decide
    · exact hid hm
  have hb : bearerSpace = "Bearer".toList ++ [' '] := by decide
  have he : bearerSpace ++ generateToken id
      = "Bearer".toList ++ ' ' :: (tokenTag ++ id) := by
    rw [hb, generateToken, List.append_assoc]
    rfl
  have hsplit : splitChar ' ' (bearerSpace ++ generateToken id)
      = ["Bearer".toList, tokenTag ++ id] := by
    rw [he, splitChar_append_cons ' ' _ _ (by decide),
        splitChar_no_sep ' ' _ hmem]
  have hne : ¬(tokenTag ++ id = []) := by simp [tokenTag]
  simp only [authenticate, hsw, if_true, hsplit]
  simp only [List.getD, List.get?, Option.getD_some]
  rw [if_neg hne, replaceFirst_of_tag]
  rfl

/-- Claim C1 witness: the round-trip at the concrete identifier `"u1"`. -/
theorem C1_token_roundtrip_witness :
    authenticate (some (bearerSpace ++ generateToken "u1".toList))
      = AuthOutcome.proceed "u1".toList :=
  C1_token_roundtrip "u1".toList (by decide)

/-- Claim C2, counterexample: the header `"Bearer  x"` starts with
`"Bearer "` and the part after that prefix (`" x"`) is non-empty, yet the
middleware responds 401 "Invalid token" instead of attaching an
identifier and proceeding — because `split(' ')[1]` is the empty segment
between the two spaces. -/
theorem C2_middleware_contract_counterexample :
    jsStartsWith "Bearer  x".toList bearerSpace = true ∧
    List.drop bearerSpace.length "Bearer  x".toList ≠ [] ∧
    authenticate (some "Bearer  x".toList)
      = AuthOutcome.reject 401 "Invalid token".toList := by
  decide

/-- Claim C2 (amended): if the Authorization header is absent or does not
start with `"Bearer "`, the middleware responds 401 and does not invoke
the downstream handler; otherwise the token is the SECOND
SPACE-SEPARATED SEGMENT of the header: when it is non-empty the
middleware attaches the derived identifier and invokes the downstream
handler, and when it is empty it responds 401. -/
theorem C2_middleware_contract (h? : Option (List Char)) :
    (h? = none →
      authenticate h? = .reject 401 "Authentication required".toList) ∧
    (∀ h, h? = some h → jsStartsWith h bearerSpace = false →
      authenticate h? = .reject 401 "Authentication required".toList) ∧
    (∀ h, h? = some h → jsStartsWith h bearerSpace = true →
      (splitChar ' ' h).getD 1 [] = [] →
      authenticate h? = .reject 401 "Invalid token".toList) ∧
    (∀ h, h? = some h → jsStartsWith h bearerSpace = true →
      (splitChar ' ' h).getD 1 [] ≠ [] →
      authenticate h? = .proceed
        (replaceFirst tokenTag [] ((splitChar ' ' h).getD 1 []))) := by
  refine ⟨?_, ?_, ?_, ?_⟩
  · intro hn; subst hn; rfl
  · intro h hs hb; subst hs; simp [authenticate, hb]
  · intro h hs hb ht; subst hs; simp [List.getD] at ht
    simp [authenticate, hb, ht]
  · intro h hs hb ht; subst hs; simp [List.getD] at ht
    simp [authenticate, hb, ht]

/-- Claim C2 witness: on the concrete header `"Bearer token_u2"`, the
middleware proceeds and attaches `"u2"`. -/
theorem C2_middleware_contract_witness :
    authenticate (some "Bearer token_u2".toList)
      = AuthOutcome.proceed "u2".toList := by
  have h := (C2_middleware_contract (some "Bearer token_u2".toList)).2.2.2
      "Bearer token_u2".toList rfl (by decide) (by decide)
  rw [h]
  decide

/-- Claim C3: for authenticated PUT requests, non-existence of the post
and ownership mismatch produce the IDENTICAL response triple
`(404, no body, unchanged store)`, so they are indistinguishable to the
caller; only when a post with that id exists whose author equals the
authenticated identifier does the request return 200 with the updated
post. -/
theorem C3_put_ownership (h? : Option (List Char)) (uid id : List Char)
    (body : UpdateBody) (store : List Post)
    (hauth : authenticate h? = AuthOutcome.proceed uid) :
    ((∀ p ∈ store, p._id ≠ id) →
        handleUpdate h? id body store = (404, none, store)) ∧
    ((∀ p ∈ store, p._id = id → p.author ≠ uid) →
        handleUpdate h? id body store = (404, none, store)) ∧
    ((∃ p ∈ store, p._id = id ∧ p.author = uid) →
        (handleUpdate h? id body store).1 = 200 ∧
        ∃ p ∈ store, p._id = id ∧ p.author = uid ∧
          (handleUpdate h? id body store).2.1
            = some (applyUpdate p body)) := by
  have hbase : ∀ (hmiss : ∀ p ∈ store, ¬(p._id = id ∧ p.author = uid)),
      handleUpdate h? id body store = (404, none, store) := by
    intro hmiss
    have hnone : store.find? (fun p => p._id == id && p.author == uid)
        = none := by
      rw [List.find?_eq_none]
      intro p hp
      have := hmiss p hp
      simp only [Bool.and_eq_true, beq_iff_eq]
      tauto
    unfold handleUpdate
    rw [hauth]
    show updatePost uid id body store = (404, none, store)
    unfold updatePost
    rw [hnone]
  refine ⟨?_, ?_, ?_⟩
  · intro hmiss
    exact hbase (fun p hp h => hmiss p hp h.1)
  · intro hmiss
    exact hbase (fun p hp h => hmiss p hp h.1 h.2)
  · intro hhit
    have hsome :
        (store.find? (fun p => p._id == id && p.author == uid)).isSome := by
      rw [List.find?_isSome]
      obtain ⟨p, hp, h1, h2⟩ := hhit
      exact ⟨p, hp, by simp [h1, h2]⟩
    obtain ⟨p, hp⟩ := Option.isSome_iff_exists.mp hsome
    have hmem := List.mem_of_find?_eq_some hp
    have hpred := List.find?_some hp
    simp only [Bool.and_eq_true, beq_iff_eq] at hpred
    have heq : handleUpdate h? id body store
        = (200, some (applyUpdate p body),
           store.map (fun q => if q._id == id then applyUpdate p body
                               else q)) := by
      unfold handleUpdate
      rw [hauth]
      show updatePost uid id body store = _
      unfold updatePost
      rw [hp]
    rw [heq]
    exact ⟨rfl, p, hmem, hpred.1, hpred.2, rfl⟩

/-- Claim C3 witness: updating the post `"p1"` owned by `"u2"` while
authenticated as `"u1"` yields the same `(404, none, unchanged store)`
as non-existence would. -/
theorem C3_put_ownership_witness :
    handleUpdate (some "Bearer token_u1".toList) "p1".toList
      ⟨some "T2".toList, none⟩
      [{ _id := "p1".toList, title := "T".toList, content := "C".toList,
         author := "u2".toList, slug := [], category := none }]
      = (404, none,
         [{ _id := "p1".toList, title := "T".toList, content := "C".toList,
            author := "u2".toList, slug := [], category := none }]) :=
  (C3_put_ownership (some "Bearer token_u1".toList) "u1".toList "p1".toList
      ⟨some "T2".toList, none⟩ _ (by decide)).2.1 (by decide)

/-- Claim C4: every successful (201) `POST /api/posts` request persists a
post whose author is exactly the identifier the middleware attached,
whatever author value the client put in the body; the created post is
appended to the store. -/
theorem C4_author_stamp (h? : Option (List Char)) (body : CreateBody)
    (newId : List Char) (store : List Post) (uid : List Char)
    (p : Post) (store' : List Post)
    (hauth : authenticate h? = AuthOutcome.proceed uid)
    (hres : handleCreate h? body newId store = (201, some p, store')) :
    p.author = uid ∧ store' = store ++ [p] := by
  unfold handleCreate at hres
  rw [hauth] at hres
  unfold createPost at hres
  cases ht : body.title with
  | none => rw [ht] at hres; cases hres
  | some t =>
    cases hc : body.content with
    | none => rw [ht, hc] at hres; cases hres
    | some c =>
      rw [ht, hc] at hres
      simp only [Prod.mk.injEq, Option.some.injEq] at hres
      obtain ⟨-, hp, hs⟩ := hres
      subst hp
      exact ⟨rfl, hs.symm⟩

/-- Claim C4 witness: authenticated as `"u1"`, a body whose client-supplied
author is `"evil"` still persists a post authored by `"u1"`. -/
theorem C4_author_stamp_witness :
    ({ _id := "n1".toList, title := "T".toList, content := "C".toList,
       author := "u1".toList, slug := [], category := none } : Post).author
        = "u1".toList ∧
    ([({ _id := "n1".toList, title := "T".toList, content := "C".toList,
         author := "u1".toList, slug := [], category := none } : Post)])
      = [] ++ [({ _id := "n1".toList, title := "T".toList,
                  content := "C".toList, author := "u1".toList,
                  slug := [], category := none } : Post)] :=
  C4_author_stamp (some "Bearer token_u1".toList)
    ⟨some "T".toList, some "C".toList, some "evil".toList, none⟩
    "n1".toList [] "u1".toList _ _ (by decide) (by decide)

/-- Claim C5: a `POST /api/posts` request without an Authorization header
is answered 401, no post is created, and the store is returned
unchanged. -/
theorem C5_post_auth_atomic (body : CreateBody) (newId : List Char)
    (store : List Post) :
    handleCreate none body newId store = (401, none, store) := rfl

/-- Claim C6: a `DELETE /api/posts/:id` request on which the middleware
does not proceed (absent, malformed, or empty-token header alike) is
answered 401 with the store unchanged. -/
theorem C6_delete_auth_atomic (h? : Option (List Char)) (id : List Char)
    (store : List Post)
    (hrej : ∀ uid, authenticate h? ≠ AuthOutcome.proceed uid) :
    (handleDelete h? id store).1 = 401 ∧
    (handleDelete h? id store).2.2 = store := by
  unfold handleDelete
  cases ha : authenticate h? with
  | reject s m =>
    exact ⟨authenticate_reject_401 h? s m ha, rfl⟩
  | proceed uid => exact absurd ha (hrej uid)

/-- Claim C6 witness: deleting with no Authorization header at all. -/
theorem C6_delete_auth_atomic_witness :
    (handleDelete none "p1".toList []).1 = 401 ∧
    (handleDelete none "p1".toList []).2.2 = ([] : List Post) :=
  C6_delete_auth_atomic none "p1".toList []
    (fun uid h => by simp [authenticate] at h)

/-- Claim C7: a `POST /api/posts` request carrying a header the
middleware accepts but whose body has no title is answered 400 with no
post created and the store unchanged. -/
theorem C7_missing_title (h? : Option (List Char)) (uid : List Char)
    (body : CreateBody) (newId : List Char) (store : List Post)
    (hauth : authenticate h? = AuthOutcome.proceed uid)
    (htitle : body.title = none) :
    handleCreate h? body newId store = (400, none, store) := by
  unfold handleCreate
  rw [hauth]
  unfold createPost
  rw [htitle]

/-- Claim C7 witness: a valid bearer token with a title-less body. -/
theorem C7_missing_title_witness :
    handleCreate (some "Bearer token_u1".toList)
      ⟨none, some "C".toList, none, none⟩ "n1".toList []
      = (400, none, []) :=
  C7_missing_title (some "Bearer token_u1".toList) "u1".toList
    ⟨none, some "C".toList, none, none⟩ "n1".toList [] (by decide) rfl

/-- Claim C8: a `GET /api/posts/:id` request answers 404 when no stored
post has that identifier, and 200 together with a stored post bearing
that identifier when one exists. -/
theorem C8_read_miss (id : List Char) (store : List Post) :
    ((∀ p ∈ store, p._id ≠ id) → getPost id store = (404, none)) ∧
    ((∃ p ∈ store, p._id = id) →
      (getPost id store).1 = 200 ∧
      ∃ p ∈ store, p._id = id ∧ (getPost id store).2 = some p) := by
  constructor
  · intro hmiss
    unfold getPost
    have hnone : store.find? (fun p => p._id == id) = none := by
      rw [List.find?_eq_none]
      intro p hp
      simp [hmiss p hp]
    rw [hnone]
  · intro hhit
    have hsome : (store.find? (fun p => p._id == id)).isSome := by
      rw [List.find?_isSome]
      obtain ⟨p, hp, hid⟩ := hhit
      exact ⟨p, hp, by simp [hid]⟩
    obtain ⟨p, hp⟩ := Option.isSome_iff_exists.mp hsome
    have hmem := List.mem_of_find?_eq_some hp
    have hpred := List.find?_some hp
    simp only [beq_iff_eq] at hpred
    unfold getPost
    rw [hp]
    exact ⟨rfl, p, hmem, hpred, rfl⟩

/-- Claim C8 witness: a read miss on the empty store. -/
theorem C8_read_miss_witness :
    getPost "p9".toList [] = (404, none) :=
  (C8_read_miss "p9".toList []).1 (by simp)

/-- Claim C9: a request whose Authorization header is exactly
`"Bearer "` (prefix present, empty token) is rejected
`401 {message: 'Invalid token'}`; the `reject` outcome means no user
identifier is attached and the downstream handler is not invoked. -/
theorem C9_empty_token :
    authenticate (some "Bearer ".toList)
      = AuthOutcome.reject 401 "Invalid token".toList := by
  decide

/-- Claim C10, counterexample: with all other props at their defaults, a
caller className of `" "` (non-empty, so the claim says it is included
with no trailing or doubled spaces) renders the class string
`"btn-primary btn-md  "`, which ends in a space — `filter(Boolean)`
keeps `" "` because only the empty string is falsy. -/
theorem C10_button_classes_counterexample :
    " ".toList ≠ [] ∧
    (Button { defaultProps with className := " ".toList }).className
      = "btn-primary btn-md  ".toList ∧
    (Button { defaultProps with className := " ".toList }).className.getLast?
      = some ' ' := by
  decide

/-- Claim C10 (amended): for every combination of props, the rendered
className is the space-joined concatenation, in order, of `btn-` +
variant, `btn-` + size, `btn-disabled` exactly when disabled, and the
caller's className exactly when non-empty (all included segments being
non-empty); the element's disabled attribute mirrors the disabled prop,
and with all defaults the className is `"btn-primary btn-md"` — all
unconditionally. Only the no-extra-spaces clause needs the props to be
space-free: when variant, size and className contain no space character,
splitting the result on spaces returns exactly those segments —
equivalently, no leading, trailing, or doubled spaces. -/
theorem C10_button_classes (p : ButtonProps) :
    (Button p).disabled = p.disabled ∧
    (Button defaultProps).className = "btn-primary btn-md".toList ∧
    (Button p).className = joinSep [' '] (partsOf p) ∧
    (∀ l ∈ partsOf p, l ≠ []) ∧
    (' ' ∉ p.variant → ' ' ∉ p.size → ' ' ∉ p.className →
      splitChar ' ' ((Button p).className) = partsOf p) := by
  have hbtn : "btn-".toList = ['b', 't', 'n', '-'] := rfl
  have hjoin : (Button p).className = joinSep [' '] (partsOf p) := by
    show buttonClasses p = _
    unfold buttonClasses partsOf
    cases hd : p.disabled <;> cases hcn : p.className <;>
      simp [List.filter, hbtn]
  have hsplitmem : ∀ l, l ∈ partsOf p →
      (l = "btn-".toList ++ p.variant ∨ l = "btn-".toList ++ p.size ∨
       l = "btn-disabled".toList ∨
       (l = p.className ∧ p.className ≠ [])) := by
    intro l hl
    unfold partsOf at hl
    rcases List.mem_append.mp hl with h1 | h1
    · rcases List.mem_append.mp h1 with h2 | h2
      · rcases List.mem_cons.mp h2 with h3 | h3
        · exact Or.inl h3
        · rcases List.mem_cons.mp h3 with h4 | h4
          · exact Or.inr (Or.inl h4)
          · exact absurd h4 (List.not_mem_nil l)
      · by_cases hd : p.disabled
        · rw [if_pos hd] at h2
          rcases List.mem_cons.mp h2 with h3 | h3
          · exact Or.inr (Or.inr (Or.inl h3))
          · exact absurd h3 (List.not_mem_nil l)
        · rw [if_neg hd] at h2
          exact absurd h2 (List.not_mem_nil l)
    · by_cases hcn : p.className = []
      · rw [if_pos hcn] at h1
        exact absurd h1 (List.not_mem_nil l)
      · rw [if_neg hcn] at h1
        rcases List.mem_cons.mp h1 with h3 | h3
        · exact Or.inr (Or.inr (Or.inr ⟨h3, hcn⟩))
        · exact absurd h3 (List.not_mem_nil l)
  have hne : ∀ l ∈ partsOf p, l ≠ [] := by
    intro l hl
    rcases hsplitmem l hl with h | h | h | ⟨h, hne2⟩
    · subst h; simp [hbtn]
    · subst h; simp [hbtn]
    · subst h; decide
    · subst h; exact hne2
  have hcons : partsOf p
      = ("btn-".toList ++ p.variant) ::
        ("btn-".toList ++ p.size) ::
        ((if p.disabled then ["btn-disabled".toList] else []) ++
         (if p.className = [] then [] else [p.className])) := rfl
  have hsplit2 : ' ' ∉ p.variant → ' ' ∉ p.size → ' ' ∉ p.className →
      splitChar ' ' ((Button p).className) = partsOf p := by
    intro hv hsz hcl
    have hfree : ∀ l ∈ partsOf p, ' ' ∉ l := by
      intro l hl
      rcases hsplitmem l hl with h | h | h | ⟨h, -⟩
      · subst h
        intro hm
        rcases List.mem_append.mp hm with hm | hm
        · revert hm; decide
        · exact hv hm
      · subst h
        intro hm
        rcases List.mem_append.mp hm with hm | hm
        · revert hm; decide
        · exact hsz hm
      · subst h; decide
      · subst h; exact hcl
    rw [hcons] at hfree
    rw [hjoin, hcons]
    exact splitChar_joinSep ' ' _ _ hfree
  exact ⟨rfl, by decide, hjoin, hne, hsplit2⟩

/-- Claim C10 witness: the default props render `"btn-primary btn-md"`
and split cleanly into the two expected segments. -/
theorem C10_button_classes_witness :
    (Button defaultProps).disabled = defaultProps.disabled ∧
    splitChar ' ' ((Button defaultProps).className) = partsOf defaultProps :=
  ⟨(C10_button_classes defaultProps).1,
   (C10_button_classes defaultProps).2.2.2.2
      (by decide) (by decide) (by decide)⟩

end BlogApi
